import Mathlib

/-!
Verification of the NotDataAnalyst repository.

This file gives a shallow embedding, in Lean, of the parts of the code that
the verified properties talk about:

* `src/utils/memory_manager.py` — `HotMemory` (global context string),
  `WarmMemory` (bounded per-session message queue with synchronous front
  pops handed to asynchronous archival, and a JSON round-tripped metadata
  map).
* `src/agents/base_agent.py` — `BaseAgent._robust_invoke` (provider
  fallback) and `BaseAgent.run_task` (bounded tool-call loop, catch-all
  error handling).
* `src/agents/router.py` — the `AgentState` shape, `router_node`'s parse
  fallback, `watcher_node`'s review normalisation, `run_agent_safely`'s
  feedback wrapping, and the routing functions `route_after_router` /
  `route_after_watcher`.

External collaborators (the LLM providers, the tool set, `json` /
`json_repair`, the clock) are modelled as explicit parameters or as
concrete Lean functions standing for the external library; everything
taken from the repository's own code follows the Python line by line.
Python exceptions are modelled with `Except` (an `Except.error` result
stands for an exception propagating out of the modelled code), `None`
with `Option.none`, and Python string truthiness with `truthy` below.
-/

namespace NotDataAnalyst

/-- Substring occurrence on character lists (helper for `containsSub`). -/
def listHasSub (s pat : List Char) : Bool :=
  match s with
  | [] => pat.isEmpty
  | _ :: rest => pat.isPrefixOf s || listHasSub rest pat

/-- Substring test (Python's `in` operator on strings). -/
def containsSub (s pat : String) : Bool :=
  listHasSub s.data pat.data

/-- Python truthiness of an optional string: `None` and `""` are falsy. -/
def truthy : Option String → Bool
  | none => false
  | some s => s ≠ ""

/-- First-match association-list lookup (Python `dict.get(key)`). -/
def assocLookup {β : Type} (l : List (String × β)) (k : String) : Option β :=
  match l with
  | [] => none
  | (k2, v) :: rest => if k2 = k then some v else assocLookup rest k

-- ==========================================================
-- HotMemory (src/utils/memory_manager.py, class HotMemory)
-- ==========================================================

/-- In-memory state of `HotMemory`: the `_global_context` string.  File
persistence is best-effort in the source (save failures are caught and
logged; the in-memory value still updates), so the observable state is
just the string. -/
structure HotMemory where
  global_context : String
deriving Repr, DecidableEq

/-- `HotMemory.set_context`: overwrite the context wholesale. -/
def HotMemory.set_context (_ : HotMemory) (context_text : String) : HotMemory :=
  { global_context := context_text }

/-- `HotMemory.get_context`: the sentinel is returned whenever the stored
context is falsy (the empty string). -/
def HotMemory.get_context (m : HotMemory) : String :=
  if m.global_context = "" then "No global context set. Please run Contextor first."
  else m.global_context

-- ==========================================================
-- WarmMemory chat queue (src/utils/memory_manager.py, class WarmMemory)
-- ==========================================================

/-- One session message as stored by `WarmMemory.add_message`
(`{"role": .., "content": .., "timestamp": ..}`). -/
structure Message where
  role : String
  content : String
  timestamp : String
deriving Repr, DecidableEq

/-- JSON-serializable Python values, as stored by `save_metadata` and in
the local fallback store.  Integers model Python's arbitrary-precision
ints; floats are not modelled. -/
inductive PyVal where
  | pynull
  | pybool (b : Bool)
  | pyint (n : Int)
  | pystr (s : String)
  | pylist (l : List PyVal)
  | pydict (l : List (String × PyVal))
deriving Repr

/-- State of one `WarmMemory` session (the local-store backend, which the
source keeps observationally interchangeable with the Redis backend): the
ordered chat list under `chat:<session_id>` and the metadata map under
`meta:<session_id>`.  The metadata map is modelled as an
association list where an update prepends (first match wins), which is
observationally the same as Python dict assignment. -/
structure WarmMemory where
  ARCHIVE_THRESHOLD : Nat
  ARCHIVE_BATCH_SIZE : Nat
  chat : List Message
  meta : List (String × PyVal)

/-- A `WarmMemory` as constructed for a fresh session: thresholds from
`WarmMemory.__init__` (`ARCHIVE_THRESHOLD = 10`, `ARCHIVE_BATCH_SIZE = 1`)
and no stored messages or metadata yet. -/
def warm_init : WarmMemory :=
  { ARCHIVE_THRESHOLD := 10, ARCHIVE_BATCH_SIZE := 1, chat := [], meta := [] }

/-- `WarmMemory._pop_oldest_sync`: remove the oldest `ARCHIVE_BATCH_SIZE`
messages from the front of the queue and return them. -/
def WarmMemory.pop_oldest_sync (m : WarmMemory) : WarmMemory × List Message :=
  ({ m with chat := m.chat.drop m.ARCHIVE_BATCH_SIZE },
   m.chat.take m.ARCHIVE_BATCH_SIZE)

/-- `WarmMemory.add_message`: append the message; if the queue length now
exceeds `ARCHIVE_THRESHOLD`, synchronously pop the oldest batch and hand
it to the (asynchronous, fire-and-forget) archiver.  The second component
is the batch handed to archival (`msgs_to_archive`); the timestamp is
supplied by the caller, standing for `datetime.now()`. -/
def WarmMemory.add_message (m : WarmMemory) (role content timestamp : String) :
    WarmMemory × List Message :=
  let msg : Message := { role := role, content := content, timestamp := timestamp }
  let m1 : WarmMemory := { m with chat := m.chat ++ [msg] }
  if m1.chat.length > m1.ARCHIVE_THRESHOLD then
    m1.pop_oldest_sync
  else
    (m1, [])

/-- `WarmMemory.get_recent_messages(limit)`: Python `lst[-limit:]`
(with `limit = 0` giving the whole list, as `lst[-0:] = lst[0:]`). -/
def WarmMemory.get_recent_messages (m : WarmMemory) (limit : Nat) : List Message :=
  if limit = 0 then m.chat else m.chat.drop (m.chat.length - limit)

/-- Run a sequence of `add_message` calls, accumulating every batch handed
to archival, in order. -/
def WarmMemory.run_adds (m : WarmMemory) : List Message → WarmMemory × List Message
  | [] => (m, [])
  | msg :: rest =>
    let r1 := m.add_message msg.role msg.content msg.timestamp
    let r2 := r1.1.run_adds rest
    (r2.1, r1.2 ++ r2.2)

theorem add_message_threshold (m : WarmMemory) (r c t : String) :
    (m.add_message r c t).1.ARCHIVE_THRESHOLD = m.ARCHIVE_THRESHOLD := by
  simp only [WarmMemory.add_message, WarmMemory.pop_oldest_sync]
  split <;> rfl

theorem add_message_batch (m : WarmMemory) (r c t : String) :
    (m.add_message r c t).1.ARCHIVE_BATCH_SIZE = m.ARCHIVE_BATCH_SIZE := by
  simp only [WarmMemory.add_message, WarmMemory.pop_oldest_sync]
  split <;> rfl

/-- Core invariant of the Warm tier with batch size 1: starting from a
queue within the threshold `T`, any sequence of adds leaves exactly the
last `T` (or fewer) of the full append stream in the queue and hands
exactly the leading overflow, in order, to archival. -/
theorem run_adds_spec (msgs : List Message) (m : WarmMemory) (T : Nat)
    (hT : m.ARCHIVE_THRESHOLD = T) (hB : m.ARCHIVE_BATCH_SIZE = 1)
    (hlen : m.chat.length ≤ T) :
    (m.run_adds msgs).1.chat
        = (m.chat ++ msgs).drop ((m.chat.length + msgs.length) - T)
      ∧ (m.run_adds msgs).2
        = (m.chat ++ msgs).take ((m.chat.length + msgs.length) - T)
      ∧ (m.run_adds msgs).1.chat.length ≤ T := by
  induction msgs generalizing m with
  | nil =>
    simp only [WarmMemory.run_adds, List.append_nil, List.length_nil, Nat.add_zero]
    have h0 : m.chat.length - T = 0 := Nat.sub_eq_zero_of_le hlen
    rw [h0]
    simp [hlen]
  | cons msg rest ih =>
    simp only [WarmMemory.run_adds]
    set m1r := m.add_message msg.role msg.content msg.timestamp with hm1r
    have hmsg : (⟨msg.role, msg.content, msg.timestamp⟩ : Message) = msg := rfl
    by_cases hover : m.chat.length + 1 > T
    · -- overflow: the queue was exactly at the threshold
      have hlenT : m.chat.length = T := Nat.le_antisymm hlen (by omega)
      have hchat1 : m1r.1.chat = (m.chat ++ [msg]).drop 1 := by
        rw [hm1r]
        simp only [WarmMemory.add_message, WarmMemory.pop_oldest_sync, hmsg]
        rw [if_pos (by simp [hT, hlenT])]
        simp [hB]
      have harch1 : m1r.2 = (m.chat ++ [msg]).take 1 := by
        rw [hm1r]
        simp only [WarmMemory.add_message, WarmMemory.pop_oldest_sync, hmsg]
        rw [if_pos (by simp [hT, hlenT])]
        simp [hB]
      have hT1 : m1r.1.ARCHIVE_THRESHOLD = T := by rw [hm1r, add_message_threshold, hT]
      have hB1 : m1r.1.ARCHIVE_BATCH_SIZE = 1 := by rw [hm1r, add_message_batch, hB]
      have hlen1 : m1r.1.chat.length ≤ T := by
        rw [hchat1]
        simp [hlenT]
      obtain ⟨ih1, ih2, ih3⟩ := ih m1r.1 hT1 hB1 hlen1
      have hlen1' : m1r.1.chat.length = T := by
        rw [hchat1]
        simp [hlenT]
      have hsplit : (m.chat ++ msg :: rest) = (m.chat ++ [msg]) ++ rest := by
        simp
      have hdrop1 : ((m.chat ++ [msg]) ++ rest).drop 1
          = (m.chat ++ [msg]).drop 1 ++ rest := by
        apply List.drop_append_of_le_length
        simp
      have hlen2 : (List.drop 1 (m.chat ++ [msg])).length = T := by simp [hlenT]
      have hidx : T + rest.length - T = rest.length := by omega
      have hgoal : m.chat.length + (msg :: rest).length - T = 1 + rest.length := by
        simp [hlenT]; omega
      refine ⟨?_, ?_, ih3⟩
      · rw [ih1, hchat1, hlen2, hidx, hgoal, hsplit, ← List.drop_drop, hdrop1]
      · have htake1 : List.take 1 ((m.chat ++ [msg]) ++ rest) = List.take 1 (m.chat ++ [msg]) :=
          List.take_append_of_le_length (by simp)
        rw [ih2, harch1, hchat1, hlen2, hidx, hgoal, hsplit, List.take_add, hdrop1, htake1]
    · -- no overflow: plain append
      have hchat1 : m1r.1.chat = m.chat ++ [msg] := by
        rw [hm1r]
        simp only [WarmMemory.add_message, WarmMemory.pop_oldest_sync, hmsg]
        rw [if_neg (by simp [hT]; omega)]
      have harch1 : m1r.2 = [] := by
        rw [hm1r]
        simp only [WarmMemory.add_message, WarmMemory.pop_oldest_sync, hmsg]
        rw [if_neg (by simp [hT]; omega)]
      have hT1 : m1r.1.ARCHIVE_THRESHOLD = T := by rw [hm1r, add_message_threshold, hT]
      have hB1 : m1r.1.ARCHIVE_BATCH_SIZE = 1 := by rw [hm1r, add_message_batch, hB]
      have hlen1 : m1r.1.chat.length ≤ T := by rw [hchat1]; simp; omega
      obtain ⟨ih1, ih2, ih3⟩ := ih m1r.1 hT1 hB1 hlen1
      have hsplit : (m.chat ++ msg :: rest) = (m.chat ++ [msg]) ++ rest := by
        simp
      refine ⟨?_, ?_, ih3⟩
      · rw [ih1, hchat1, hsplit]
        congr 1
        simp
        omega
      · rw [ih2, harch1, hchat1, hsplit]
        simp only [List.nil_append]
        congr 1
        simp
        omega

/-- The message `m_i` of the concrete scenario (role and content are
irrelevant to the queue mechanics; the index makes the messages distinct). -/
def mkMsg (i : Nat) : Message :=
  { role := "User", content := "m" ++ toString i, timestamp := "t" }

/-- C1: for every sequence of `add_message` calls on a fresh `WarmMemory`
(capacity `ARCHIVE_THRESHOLD = 10`, batch size 1), the queue at rest holds
exactly the last (at most) 10 messages of the append stream in original
order, so its length never exceeds 10, `get_recent_messages 10` returns
exactly that window (oldest first), and the messages handed to archival
are exactly the over-threshold prefix, taken from the front, in order; in
particular after pushing `m0..m10` the queue holds `m1..m10` and `[m0]`
is the batch handed to archival. -/
theorem warm_bounded_window_C1 :
    (∀ msgs : List Message,
      (warm_init.run_adds msgs).1.chat = msgs.drop (msgs.length - 10)
        ∧ (warm_init.run_adds msgs).1.chat.length ≤ 10
        ∧ (warm_init.run_adds msgs).1.get_recent_messages 10
            = msgs.drop (msgs.length - 10)
        ∧ (warm_init.run_adds msgs).2 = msgs.take (msgs.length - 10))
    ∧ (warm_init.run_adds ((List.range 11).map mkMsg)).1.chat
        = ((List.range 11).map mkMsg).drop 1
    ∧ (warm_init.run_adds ((List.range 11).map mkMsg)).2 = [mkMsg 0] := by
  have main : ∀ msgs : List Message,
      (warm_init.run_adds msgs).1.chat = msgs.drop (msgs.length - 10)
        ∧ (warm_init.run_adds msgs).1.chat.length ≤ 10
        ∧ (warm_init.run_adds msgs).1.get_recent_messages 10
            = msgs.drop (msgs.length - 10)
        ∧ (warm_init.run_adds msgs).2 = msgs.take (msgs.length - 10) := by
    intro msgs
    have hc : warm_init.chat = [] := rfl
    obtain ⟨h1, h2, h3⟩ := run_adds_spec msgs warm_init 10 rfl rfl (by rw [hc]; simp)
    rw [hc] at h1 h2
    simp only [List.nil_append, List.length_nil, Nat.zero_add] at h1 h2
    refine ⟨h1, h3, ?_, h2⟩
    rw [WarmMemory.get_recent_messages, if_neg (by omega), h1]
    have hz : (List.drop (msgs.length - 10) msgs).length - 10 = 0 := by
      simp only [List.length_drop]
      omega
    rw [hz, List.drop_zero]
  refine ⟨main, ?_, ?_⟩
  · obtain ⟨h1, -, -, -⟩ := main ((List.range 11).map mkMsg)
    simpa using h1
  · obtain ⟨-, -, -, h4⟩ := main ((List.range 11).map mkMsg)
    rw [h4]
    simp [List.range_succ]

/-- C10: `HotMemory.get_context` never returns the empty string; after
`set_context ""` (the `/reset` flow) it returns the exact sentinel, and
the sentinel contains the substring `"No global context set"` used by the
callers' detection. -/
theorem hot_context_sentinel_C10 :
    (∀ m : HotMemory, (m.set_context "").get_context
        = "No global context set. Please run Contextor first.")
    ∧ (∀ m : HotMemory, m.get_context ≠ "")
    ∧ containsSub "No global context set. Please run Contextor first."
        "No global context set" = true := by
  refine ⟨fun m => rfl, fun m => ?_, by decide⟩
  by_cases h : m.global_context = ""
  · simp only [HotMemory.get_context, h, if_pos]
    decide
  · simp only [HotMemory.get_context, if_neg h]
    exact h

-- ==========================================================
-- Orchestration state machine (src/agents/router.py)
-- ==========================================================

/-- ASCII uppercasing (Python `str.upper()` on the ASCII statuses used
here), written over the character list so it evaluates in the kernel. -/
def upperStr (s : String) : String :=
  String.mk (s.data.map Char.toUpper)

/-- Rendering of an optional value inside a Python f-string:
`None` prints as `"None"`. -/
def pyStrOf : Option String → String
  | none => "None"
  | some s => s

/-- The `AgentState` TypedDict of `router.py`, restricted to the fields
the routing logic reads.  A missing key (`state.get(..) = None`) and an
explicit `None`/JSON-`null` value are both `none`; the accumulated
`messages`/`errors` channels are omitted (no verified property reads
them). -/
structure AgentState where
  user_request : String := ""
  cleaner_task : Option String := none
  fe_task : Option String := none
  viz_task : Option String := none
  trainer_task : Option String := none
  last_agent : Option String := none
  watcher_status : Option String := none
  watcher_feedback : Option String := none
deriving Repr, DecidableEq

/-- Result of a LangGraph conditional edge: a single node name, a list of
node names (parallel fan-out), or the `END` sentinel. -/
inductive NextNode where
  | single (name : String)
  | multi (names : List String)
  | END
deriving Repr, DecidableEq

/-- The set of node names a routing result schedules. -/
def scheduled : NextNode → List String
  | .single n => [n]
  | .multi l => l
  | .END => []

/-- `route_after_router` (router.py): first worker, in fixed priority
order, with a truthy task; else `END`. -/
def route_after_router (s : AgentState) : NextNode :=
  if truthy s.cleaner_task then .single "cleaner"
  else if truthy s.fe_task then .single "feature_engineer"
  else if truthy s.viz_task then .single "visualizer"
  else if truthy s.trainer_task then .single "trainer"
  else .END

/-- `route_after_watcher` (router.py): FAIL goes back to the Router;
otherwise (PASS, WARN, or anything else) continue the pipeline — from
`cleaner` with a pending `fe_task` go to `feature_engineer`; from
`cleaner`/`feature_engineer` fan out to the truthy viz/trainer tasks;
else `END`.  (The WARN branch of the source only logs.) -/
def route_after_watcher (s : AgentState) : NextNode :=
  if s.watcher_status = some "FAIL" then .single "router"
  else if s.last_agent = some "cleaner" ∧ truthy s.fe_task then .single "feature_engineer"
  else if s.last_agent = some "cleaner" ∨ s.last_agent = some "feature_engineer" then
    let next_nodes := (if truthy s.viz_task then ["visualizer"] else [])
      ++ (if truthy s.trainer_task then ["trainer"] else [])
    if next_nodes.isEmpty then .END else .multi next_nodes
  else .END

/-- The state-delta returned by `router_node`. -/
structure RouterUpdate where
  chat_response : Option String
  cleaner_task : Option String
  fe_task : Option String
  viz_task : Option String
  trainer_task : Option String
deriving Repr, DecidableEq

/-- The post-LLM part of `router_node`: `content` is the raw LLM output
text and `repaired` the result of the external
`json_repair.repair_json(content, return_objects=True)` call — `none`
when that call raises, `some tasks` when it returns an object whose
values are strings or nulls.  On failure the chat response degrades to
`content.strip()` and `tasks = {}`, so every per-worker key comes back
`None`.  (`tasks.pop("chat_response", ..)` removes a key none of the
four task lookups use, so the removal is not modelled.) -/
def router_node_decide (content : String)
    (repaired : Option (List (String × Option String))) : RouterUpdate :=
  match repaired with
  | none =>
    { chat_response := some content.trim,
      cleaner_task := none, fe_task := none, viz_task := none, trainer_task := none }
  | some tasks =>
    { chat_response :=
        match assocLookup tasks "chat_response" with
        | none => some "✅ Task delegated or completed."
        | some v => v,
      cleaner_task := (assocLookup tasks "cleaner_task").join,
      fe_task := (assocLookup tasks "fe_task").join,
      viz_task := (assocLookup tasks "viz_task").join,
      trainer_task := (assocLookup tasks "trainer_task").join }

/-- Merging `router_node`'s returned dict into the graph state: the four
task keys are plain (last-write-wins) channels, so they are overwritten. -/
def apply_router_update (s : AgentState) (u : RouterUpdate) : AgentState :=
  { s with cleaner_task := u.cleaner_task, fe_task := u.fe_task,
           viz_task := u.viz_task, trainer_task := u.trainer_task }

/-- Python type names as they appear in `AttributeError` messages. -/
def pyTypeName : PyVal → String
  | .pynull => "NoneType"
  | .pybool _ => "bool"
  | .pyint _ => "int"
  | .pystr _ => "str"
  | .pylist _ => "list"
  | .pydict _ => "dict"

/-- The state-delta returned by `watcher_node`.  The feedback is whatever
value `cleaned_review.get("feedback", ..)` produced — a JSON value, not
necessarily a string. -/
structure WatcherUpdate where
  watcher_status : String
  watcher_feedback : PyVal
deriving Repr

/-- The verdict built from an upcased status string: `"RETRY"` is
normalised to `"FAIL"`, then the three-way branch picks the update. -/
def watcher_verdict (su : String) (feedback : PyVal) : WatcherUpdate :=
  let status := if su = "RETRY" then "FAIL" else su
  if status = "FAIL" then { watcher_status := "FAIL", watcher_feedback := feedback }
  else if status = "WARN" then { watcher_status := "WARN", watcher_feedback := feedback }
  else { watcher_status := "PASS", watcher_feedback := feedback }

/-- The post-review part of `watcher_node`.  Only the
`json_repair.repair_json(review, return_objects=True)` call sits inside
the `try`: `repaired = none` models that call raising (the `except`
branch defaults to PASS with the diagnostic note), and `repaired = some v`
models it returning the Python value `v` — for unrepairable text the
library returns the raw or empty string rather than raising.  The
subsequent `cleaned_review.get("status", "PASS").upper()` runs outside
the `try`/`except`, so a non-dict `v` raises `AttributeError` at `.get`,
and a non-string `status` value (e.g. JSON `null`) raises
`AttributeError` at `.upper()`; an `Except.error` models that exception
propagating out of `watcher_node`.  (`feedback` is only read after the
`.upper()` call succeeded, as in the source's statement order.) -/
def watcher_node_review (repaired : Option PyVal) : Except String WatcherUpdate :=
  match repaired with
  | none =>
    .ok { watcher_status := "PASS",
          watcher_feedback := .pystr "Watcher output unparseable, defaulting to PASS." }
  | some v =>
    match v with
    | .pydict obj =>
      match (assocLookup obj "status").getD (.pystr "PASS") with
      | .pystr s =>
        .ok (watcher_verdict (upperStr s)
          ((assocLookup obj "feedback").getD (.pystr "No feedback provided.")))
      | other =>
        .error ("AttributeError: '" ++ pyTypeName other
          ++ "' object has no attribute 'upper'")
    | other =>
      .error ("AttributeError: '" ++ pyTypeName other
        ++ "' object has no attribute 'get'")

/-- `run_agent_safely` (router.py): the task string actually handed to
`Worker.run_task` — watcher feedback is prepended only when the state's
`watcher_status` equals `"RETRY"`. -/
def run_agent_task (state : AgentState) (task : String) : String :=
  if state.watcher_status = some "RETRY" then
    "FEEDBACK_FROM_WATCHER: " ++ pyStrOf state.watcher_feedback
      ++ "\n\nORIGINAL_TASK: " ++ task
  else task

theorem watcher_verdict_cases (su : String) (fb : PyVal) :
    (watcher_verdict su fb).watcher_status = "PASS"
      ∨ (watcher_verdict su fb).watcher_status = "WARN"
      ∨ (watcher_verdict su fb).watcher_status = "FAIL" := by
  simp only [watcher_verdict]
  repeat' split
  all_goals first | (left; rfl) | (right; left; rfl) | (right; right; rfl)

/-- Every review outcome that returns (does not raise) leaves the watcher
status at one of the three severities (shared by the C4 theorem). -/
theorem watcher_review_status_cases (r : Option PyVal) (u : WatcherUpdate)
    (h : watcher_node_review r = Except.ok u) :
    u.watcher_status = "PASS" ∨ u.watcher_status = "WARN"
      ∨ u.watcher_status = "FAIL" := by
  rcases r with _ | v
  · left
    have h2 : Except.ok (⟨"PASS",
        PyVal.pystr "Watcher output unparseable, defaulting to PASS."⟩ : WatcherUpdate)
          = Except.ok u := h
    injection h2 with h3
    rw [← h3]
  · rcases v with _ | b | n | s | l | obj
    · simp [watcher_node_review] at h
    · simp [watcher_node_review] at h
    · simp [watcher_node_review] at h
    · simp [watcher_node_review] at h
    · simp [watcher_node_review] at h
    · simp only [watcher_node_review] at h
      rcases hs : (assocLookup obj "status").getD (.pystr "PASS")
        with _ | b2 | n2 | s2 | l2 | kvs2
      · rw [hs] at h; simp at h
      · rw [hs] at h; simp at h
      · rw [hs] at h; simp at h
      · rw [hs] at h
        have h2 : Except.ok (watcher_verdict (upperStr s2)
            ((assocLookup obj "feedback").getD (.pystr "No feedback provided.")))
              = Except.ok u := h
        injection h2 with h3
        rw [← h3]
        exact watcher_verdict_cases _ _
      · rw [hs] at h; simp at h
      · rw [hs] at h; simp at h

/-- C2: whenever `watcher_status = "FAIL"`, `route_after_watcher` resolves
to the Router node, regardless of every other field of the state. -/
theorem fail_reroutes_to_router_C2 (s : AgentState)
    (h : s.watcher_status = some "FAIL") :
    route_after_watcher s = NextNode.single "router" := by
  simp [route_after_watcher, h]

/-- Witness for C2 at a concrete state (tasks set, last agent unrelated). -/
theorem fail_reroutes_to_router_C2_witness :
    route_after_watcher
      { cleaner_task := some "c", viz_task := some "v", trainer_task := some "t",
        last_agent := some "feature_engineer", watcher_status := some "FAIL",
        watcher_feedback := some "bad output" }
      = NextNode.single "router" :=
  fail_reroutes_to_router_C2 _ rfl

/-- C6: when the Router LLM output cannot be parsed even by the repair
step, `router_node` produces no per-worker tasks, the chat response
degrades to the stripped raw text, and `route_after_router` on the merged
state resolves to `END` — for every raw output and every prior state. -/
theorem router_parse_failure_C6 (content : String) (s : AgentState) :
    (router_node_decide content none).cleaner_task = none
      ∧ (router_node_decide content none).fe_task = none
      ∧ (router_node_decide content none).viz_task = none
      ∧ (router_node_decide content none).trainer_task = none
      ∧ (router_node_decide content none).chat_response = some content.trim
      ∧ route_after_router (apply_router_update s (router_node_decide content none))
          = NextNode.END := by
  refine ⟨rfl, rfl, rfl, rfl, rfl, ?_⟩
  simp [route_after_router, apply_router_update, router_node_decide, truthy]

/-- C7 (bug evidence): the fail-open PASS default fires only when
`json_repair.repair_json` itself raises (first conjunct).  The
`.get`/`.upper()` calls sit outside the `try`, so when the repair call
instead returns an unparseable result — the raw or empty string it
produces for unrepairable text, or an object whose `status` is `null` —
`watcher_node` raises an uncaught `AttributeError` instead of failing
open (second and third conjuncts), contrary to the claim and the spec's
stated fail-open policy. -/
theorem watcher_fail_open_C7 :
    watcher_node_review none
        = Except.ok { watcher_status := "PASS",
                      watcher_feedback := PyVal.pystr "Watcher output unparseable, defaulting to PASS." }
      ∧ watcher_node_review (some (PyVal.pystr ""))
          = Except.error "AttributeError: 'str' object has no attribute 'get'"
      ∧ watcher_node_review (some (PyVal.pydict
          [("status", PyVal.pynull), ("feedback", PyVal.pystr "looks wrong")]))
          = Except.error "AttributeError: 'NoneType' object has no attribute 'upper'" :=
  ⟨rfl, rfl, rfl⟩

/-- C4 (bug evidence): with a prior FAIL verdict and feedback in the
state, the task handed to `Worker.run_task` is the original task,
unmodified — the feedback-wrapping branch of `run_agent_safely` tests for
the legacy `"RETRY"` status only, and `watcher_node` never emits
`"RETRY"` (it normalises it to `"FAIL"`), so the branch is dead in the
graph.  The second conjunct shows the normalisation on the scenario
output `{"status": "retry", "feedback": "x"}`; the third that no review
outcome that returns a verdict can ever set the state to `"RETRY"`. -/
theorem retry_feedback_wrapping_C4 :
    run_agent_task
        { cleaner_task := some "clean the data", last_agent := some "cleaner",
          watcher_status := some "FAIL", watcher_feedback := some "fix the nulls" }
        "clean the data"
      = "clean the data"
      ∧ watcher_node_review (some (PyVal.pydict
          [("status", PyVal.pystr "retry"), ("feedback", PyVal.pystr "x")]))
          = Except.ok { watcher_status := "FAIL", watcher_feedback := PyVal.pystr "x" }
      ∧ ∀ r u, watcher_node_review r = Except.ok u → u.watcher_status ≠ "RETRY" := by
  refine ⟨rfl, rfl, fun r u h => ?_⟩
  rcases watcher_review_status_cases r u h with h2 | h2 | h2 <;> simp [h2]

/-- Witness for C4's third conjunct at the scenario review object. -/
theorem retry_feedback_wrapping_C4_witness :
    ({ watcher_status := "FAIL", watcher_feedback := PyVal.pystr "x" }
        : WatcherUpdate).watcher_status ≠ "RETRY" :=
  retry_feedback_wrapping_C4.2.2
    (some (PyVal.pydict [("status", PyVal.pystr "retry"), ("feedback", PyVal.pystr "x")]))
    { watcher_status := "FAIL", watcher_feedback := PyVal.pystr "x" }
    rfl

/-- The C8 counterexample states: both have truthy viz and trainer tasks
and `watcher_status = "PASS"`, yet the fan-out is not scheduled.  In the
first, the Cleaner just ran and an `fe_task` is still pending (the route
is `feature_engineer`); in the second no recognised worker is recorded in
`last_agent` (the route is `END`). -/
def fanout_pending_fe_state : AgentState :=
  { user_request := "clean, engineer, plot and train",
    cleaner_task := some "c", fe_task := some "f",
    viz_task := some "v", trainer_task := some "t",
    last_agent := some "cleaner", watcher_status := some "PASS",
    watcher_feedback := some "ok" }

def fanout_no_last_agent_state : AgentState :=
  { viz_task := some "v", trainer_task := some "t",
    watcher_status := some "PASS", watcher_feedback := some "" }

/-- C8 counterexample: at `fanout_pending_fe_state` the Visualizer is not
among the scheduled next nodes (the route is the single node
`feature_engineer`), and at `fanout_no_last_agent_state` the Trainer is
not scheduled either (the route is `END`) — refuting the claim that PASS
plus two truthy tasks alone guarantee the fan-out. -/
theorem fanout_membership_C8_counterexample :
    "visualizer" ∉ scheduled (route_after_watcher fanout_pending_fe_state)
      ∧ "trainer" ∉ scheduled (route_after_watcher fanout_no_last_agent_state) := by
  decide

/-- C8 (amended): if additionally `last_agent` records the Cleaner or the
FeatureEngineer and, in the Cleaner case, no `fe_task` is pending, then a
PASS verdict with truthy viz and trainer tasks fans out to exactly
`["visualizer", "trainer"]` — in particular both are scheduled. -/
theorem fanout_membership_C8 (s : AgentState)
    (hstat : s.watcher_status = some "PASS")
    (hlast : s.last_agent = some "cleaner" ∨ s.last_agent = some "feature_engineer")
    (hfe : s.last_agent = some "cleaner" → truthy s.fe_task = false)
    (hviz : truthy s.viz_task = true) (htr : truthy s.trainer_task = true) :
    route_after_watcher s = NextNode.multi ["visualizer", "trainer"]
      ∧ "visualizer" ∈ scheduled (route_after_watcher s)
      ∧ "trainer" ∈ scheduled (route_after_watcher s) := by
  have hr : route_after_watcher s = NextNode.multi ["visualizer", "trainer"] := by
    rw [route_after_watcher, if_neg (by simp [hstat]), if_neg ?hno, if_pos hlast]
    · simp [hviz, htr]
    case hno =>
      rintro ⟨hc, hf⟩
      rw [hfe hc] at hf
      exact Bool.false_ne_true hf
  exact ⟨hr, by rw [hr]; simp [scheduled], by rw [hr]; simp [scheduled]⟩

/-- Witness for C8 (amended): the FeatureEngineer just passed review and
both downstream tasks are pending. -/
theorem fanout_membership_C8_witness :
    route_after_watcher
        { fe_task := some "f", viz_task := some "v", trainer_task := some "t",
          last_agent := some "feature_engineer", watcher_status := some "PASS",
          watcher_feedback := some "ok" }
      = NextNode.multi ["visualizer", "trainer"]
      ∧ "visualizer" ∈ scheduled (route_after_watcher
        { fe_task := some "f", viz_task := some "v", trainer_task := some "t",
          last_agent := some "feature_engineer", watcher_status := some "PASS",
          watcher_feedback := some "ok" })
      ∧ "trainer" ∈ scheduled (route_after_watcher
        { fe_task := some "f", viz_task := some "v", trainer_task := some "t",
          last_agent := some "feature_engineer", watcher_status := some "PASS",
          watcher_feedback := some "ok" }) :=
  fanout_membership_C8 _ rfl (Or.inr rfl) (by decide) rfl rfl

-- ==========================================================
-- BaseAgent (src/agents/base_agent.py)
-- ==========================================================

/-- ASCII lowercasing (Python `str.lower()`), kernel-evaluable. -/
def lowerStr (s : String) : String :=
  String.mk (s.data.map Char.toLower)

/-- One entry of an `AIMessage.tool_calls` list (`args` kept opaque). -/
structure ToolCall where
  name : String
  args : String
  id : String
deriving Repr, DecidableEq

/-- An LLM response (`AIMessage`): text content plus requested tool
calls.  (`content` models the final string; the source's handling of
list-shaped Gemini content collapses to the same string.) -/
structure LLMResponse where
  content : String
  tool_calls : List ToolCall
deriving Repr, DecidableEq

/-- A LangChain chat message as built by `run_task`. -/
inductive ChatMsg where
  | system (content : String)
  | human (content : String)
  | ai (content : String) (tool_calls : List ToolCall)
  | tool (content : String) (tool_call_id : String)
deriving Repr, DecidableEq

/-- The external world of a `BaseAgent` run: `invoke p msgs` is the
(possibly failing) LLM call with provider `p` active (`Except.error`
models a raised exception, carrying `str(e)`), `tool_lookup` is the
`tools_map`, and `ts` stands for `datetime.now()` in `add_message`. -/
structure AgentEnv where
  invoke : String → List ChatMsg → Except String LLMResponse
  tool_lookup : String → Option (String → Except String String)
  ts : String

/-- The per-agent state `run_task` reads and writes: name, the system
prompt (already formatted with the HotMemory context snapshot taken at
construction), the warm memory session and the currently active
provider. -/
structure BaseAgentState where
  agent_name : String
  formatted_system_prompt : String
  warm_memory : WarmMemory
  provider : String

/-- `e.isError`-style test used to state when a modelled call raised. -/
def exceptFailed {ε α : Type} : Except ε α → Bool
  | .error _ => true
  | .ok _ => false

/-- The substring test of `_robust_invoke` for a hallucinated-tool
validation error. -/
def is_tool_validation_error (e : String) : Bool :=
  containsSub e "tool call validation failed" || containsSub e "not in request.tools"

/-- The fixed fallback priority list of `_robust_invoke`. -/
def FALLBACK_PROVIDERS : List String := ["gemini", "groq", "openrouter"]

/-- The fallback loop of `_robust_invoke`: switch to each provider in
turn and retry; when the list is exhausted, raise the `RuntimeError`. -/
def try_providers (env : AgentEnv) (ps : List String) (msgs : List ChatMsg) :
    Except String (LLMResponse × String) :=
  match ps with
  | [] => .error "All LLM providers failed. Please check your API keys or connection."
  | p :: rest =>
    match env.invoke p msgs with
    | .ok r => .ok (r, p)
    | .error _ => try_providers env rest msgs

/-- `BaseAgent._robust_invoke`: try the current provider; on a
tool-validation-shaped error synthesise the safe fallback `AIMessage`;
on any other error walk the fallback providers.  The second component of
a success is the provider left active (the process-wide switch side
effect). -/
def robust_invoke (env : AgentEnv) (cur : String) (msgs : List ChatMsg) :
    Except String (LLMResponse × String) :=
  match env.invoke cur msgs with
  | .ok r => .ok (r, cur)
  | .error e =>
    if is_tool_validation_error e then
      .ok ({ content := "I encountered a tool error. The requested tool is not available. Please use only: python_interpreter, install_package, or chat_log_search.",
             tool_calls := [] }, cur)
    else try_providers env FALLBACK_PROVIDERS msgs

/-- Truncation of a single history message (`content[:3000] + "... [TRUNCATED]"`). -/
def truncate_content (c : String) : String :=
  if c.length > 3000 then c.take 3000 ++ "... [TRUNCATED]" else c

/-- One WarmMemory message rendered for the prompt: `"user"` roles become
human turns, every other role an assistant turn prefixed `[role]:`. -/
def history_msg (m : Message) : ChatMsg :=
  let content := truncate_content m.content
  if lowerStr m.role = "user" then .human content
  else .ai ("[" ++ m.role ++ "]: " ++ content) []

/-- `BaseAgent._build_history`: system prompt plus the rendered last 30
warm-memory messages. -/
def build_history (sys : String) (wm : WarmMemory) : List ChatMsg :=
  .system sys :: (wm.get_recent_messages 30).map history_msg

/-- Executing one requested tool call (`run_task` step 4): unknown names
and tool exceptions become observational text, never exceptions. -/
def exec_tool (env : AgentEnv) (tc : ToolCall) : String :=
  match (env.tool_lookup tc.name).orElse (fun _ => env.tool_lookup (lowerStr tc.name)) with
  | some t =>
    match t tc.args with
    | .ok out => out
    | .error e => "Error executing tool: " ++ e
  | none => "Error: Tool " ++ tc.name ++ " not found."

def aiToMsg (r : LLMResponse) : ChatMsg := .ai r.content r.tool_calls

/-- `MAX_LOOPS` (run_task's safety break). -/
def MAX_LOOPS : Nat := 5

/-- The `while ai_msg.tool_calls and loop_count < MAX_LOOPS` loop of
`run_task`, with `fuel = MAX_LOOPS - loop_count`.  Returns the number of
iterations run and either the final response with the active provider or
the exception propagating out of a re-invocation. -/
def tool_loop (env : AgentEnv) :
    Nat → String → List ChatMsg → LLMResponse →
      Nat × Except String (LLMResponse × String)
  | 0, cur, _, ai => (0, .ok (ai, cur))
  | fuel + 1, cur, msgs, ai =>
    if ai.tool_calls.isEmpty then (0, .ok (ai, cur))
    else
      match robust_invoke env cur
          (msgs ++ ai.tool_calls.map (fun tc => ChatMsg.tool (exec_tool env tc) tc.id)) with
      | .error e => (1, .error e)
      | .ok (ai2, cur2) =>
        ((tool_loop env fuel cur2
            ((msgs ++ ai.tool_calls.map (fun tc => ChatMsg.tool (exec_tool env tc) tc.id))
              ++ [aiToMsg ai2]) ai2).1 + 1,
         (tool_loop env fuel cur2
            ((msgs ++ ai.tool_calls.map (fun tc => ChatMsg.tool (exec_tool env tc) tc.id))
              ++ [aiToMsg ai2]) ai2).2)

/-- Everything `BaseAgent.run_task` produces: the returned string (as an
`Except` whose `error` constructor would model an exception escaping
`run_task`), the number of tool rounds, the final LLM response (when the
body completed), and the updated warm memory and provider. -/
structure RunTaskResult where
  result : Except String String
  rounds : Nat
  final : Option LLMResponse
  warm_memory : WarmMemory
  provider : String

/-- `BaseAgent.run_task`: log the task to warm memory (outside the
`try`), build the history, invoke robustly, run the bounded tool loop,
log and return the final content — with the catch-all `except Exception`
turning any raised error into the `"❌ Agent Error: .."` string. -/
def run_task_full (env : AgentEnv) (st : BaseAgentState) (task : String) :
    RunTaskResult :=
  let wm1 := (st.warm_memory.add_message "User" task env.ts).1
  let msgs := build_history st.formatted_system_prompt wm1
  match robust_invoke env st.provider msgs with
  | .error e =>
    { result := .ok ("❌ Agent Error: " ++ e), rounds := 0, final := none,
      warm_memory := wm1, provider := st.provider }
  | .ok (ai0, cur1) =>
    match tool_loop env MAX_LOOPS cur1 (msgs ++ [aiToMsg ai0]) ai0 with
    | (n, .error e) =>
      { result := .ok ("❌ Agent Error: " ++ e), rounds := n, final := none,
        warm_memory := wm1, provider := cur1 }
    | (n, .ok (af, cf)) =>
      { result := .ok af.content, rounds := n, final := some af,
        warm_memory := (wm1.add_message st.agent_name af.content env.ts).1,
        provider := cf }

/-- The value of `run_task` as seen by callers. -/
def run_task (env : AgentEnv) (st : BaseAgentState) (task : String) :
    Except String String :=
  (run_task_full env st task).result

theorem tool_loop_rounds_le (env : AgentEnv) :
    ∀ (fuel : Nat) (cur : String) (msgs : List ChatMsg) (ai : LLMResponse),
      (tool_loop env fuel cur msgs ai).1 ≤ fuel := by
  intro fuel
  induction fuel with
  | zero => intro cur msgs ai; simp [tool_loop]
  | succ f ih =>
    intro cur msgs ai
    rw [tool_loop]
    by_cases he : ai.tool_calls.isEmpty
    · simp [he]
    · rw [if_neg he]
      rcases hr : robust_invoke env cur
          (msgs ++ ai.tool_calls.map (fun tc => ChatMsg.tool (exec_tool env tc) tc.id))
        with e | ⟨ai2, cur2⟩
      · simp [hr]
      · simp only [hr]
        exact Nat.succ_le_succ (ih _ _ _)

theorem try_providers_fail_iff (env : AgentEnv) (msgs : List ChatMsg) :
    ∀ ps, exceptFailed (try_providers env ps msgs) = true
      ↔ ∀ p ∈ ps, ∃ e, env.invoke p msgs = Except.error e := by
  intro ps
  induction ps with
  | nil => simp [try_providers, exceptFailed]
  | cons p rest ih =>
    rcases hp : env.invoke p msgs with e | r
    · simp only [try_providers, hp, ih]
      constructor
      · intro h q hq
        rcases List.mem_cons.mp hq with hq | hq
        · subst hq; exact ⟨e, hp⟩
        · exact h q hq
      · intro h q hq
        exact h q (List.mem_cons_of_mem _ hq)
    · simp only [try_providers, hp, exceptFailed]
      constructor
      · intro h; simp at h
      · intro h
        rcases h p (List.mem_cons_self _ _) with ⟨e, he⟩
        rw [hp] at he
        simp at he

theorem try_providers_fail_msg (env : AgentEnv) (msgs : List ChatMsg) :
    ∀ ps, exceptFailed (try_providers env ps msgs) = true
      → try_providers env ps msgs
          = Except.error "All LLM providers failed. Please check your API keys or connection." := by
  intro ps
  induction ps with
  | nil => intro _; rfl
  | cons p rest ih =>
    rcases hp : env.invoke p msgs with e | r
    · simp only [try_providers, hp]
      exact ih
    · simp only [try_providers, hp, exceptFailed]
      intro h; simp at h

/-- If `_robust_invoke` raised, it raised the provider-exhaustion
`RuntimeError` message. -/
theorem robust_invoke_fail_msg (env : AgentEnv) (cur : String) (msgs : List ChatMsg)
    (h : exceptFailed (robust_invoke env cur msgs) = true) :
    robust_invoke env cur msgs
      = Except.error "All LLM providers failed. Please check your API keys or connection." := by
  rcases hc : env.invoke cur msgs with e | r
  · simp only [robust_invoke, hc] at h ⊢
    by_cases hv : is_tool_validation_error e = true
    · rw [if_pos hv] at h
      simp [exceptFailed] at h
    · rw [if_neg hv] at h ⊢
      exact try_providers_fail_msg env msgs _ h
  · simp [robust_invoke, hc, exceptFailed] at h

/-- C3 counterexample: an environment in which the current provider and
every fallback provider raise on every call. -/
def all_fail_env : AgentEnv :=
  { invoke := fun _ _ => .error "connection refused",
    tool_lookup := fun _ => none, ts := "t0" }

/-- A `BaseAgent` as constructed by router.py (fresh shared session). -/
def agent_st0 : BaseAgentState :=
  { agent_name := "Cleaner", formatted_system_prompt := "sys",
    warm_memory := warm_init, provider := "default" }

/-- C3 counterexample: when every LLM provider fails — the one situation
in which the claim requires `run_task` to raise — `run_task` does not
raise: the `RuntimeError` from `_robust_invoke` is caught by `run_task`'s
catch-all handler and returned as an error-description string. -/
theorem run_task_raises_C3_counterexample :
    run_task all_fail_env agent_st0 "plot the data"
      = Except.ok "❌ Agent Error: All LLM providers failed. Please check your API keys or connection." := by
  rfl

/-- C3 (amended): `run_task` never raises at all — it always returns a
string.  `_robust_invoke` is the layer that raises, and it raises exactly
when the current provider fails with a non-tool-validation error and
every fallback provider fails; when that happens during `run_task`'s
first invocation, the exception is caught and converted into the
`"❌ Agent Error: .."` string. -/
theorem run_task_raises_C3 :
    (∀ env st task, ∃ s, run_task env st task = Except.ok s)
      ∧ (∀ (env : AgentEnv) cur msgs,
          exceptFailed (robust_invoke env cur msgs) = true
            ↔ (∃ e, env.invoke cur msgs = Except.error e
                  ∧ is_tool_validation_error e = false)
              ∧ ∀ p ∈ FALLBACK_PROVIDERS, ∃ e2, env.invoke p msgs = Except.error e2)
      ∧ (∀ env st task,
          exceptFailed (robust_invoke env st.provider
              (build_history st.formatted_system_prompt
                ((st.warm_memory.add_message "User" task env.ts).1))) = true
            → run_task env st task
                = Except.ok "❌ Agent Error: All LLM providers failed. Please check your API keys or connection.") := by
  refine ⟨?_, ?_, ?_⟩
  · intro env st task
    rcases hrob : robust_invoke env st.provider
        (build_history st.formatted_system_prompt
          ((st.warm_memory.add_message "User" task env.ts).1)) with e | ⟨ai0, cur1⟩
    · exact ⟨"❌ Agent Error: " ++ e, by simp only [run_task, run_task_full, hrob]⟩
    · rcases htl : tool_loop env MAX_LOOPS cur1
          (build_history st.formatted_system_prompt
            ((st.warm_memory.add_message "User" task env.ts).1) ++ [aiToMsg ai0]) ai0
        with ⟨n, e2 | ⟨af, cf⟩⟩
      · exact ⟨"❌ Agent Error: " ++ e2,
          by simp only [run_task, run_task_full, hrob, htl]⟩
      · exact ⟨af.content, by simp only [run_task, run_task_full, hrob, htl]⟩
  · intro env cur msgs
    rcases hc : env.invoke cur msgs with e | r
    · simp only [robust_invoke, hc]
      by_cases hv : is_tool_validation_error e = true
      · rw [if_pos hv]
        simp only [exceptFailed]
        constructor
        · intro h; simp at h
        · rintro ⟨⟨e2, he2, hv2⟩, -⟩
          injection he2 with he3
          rw [← he3, hv] at hv2
          exact Bool.noConfusion hv2
      · rw [if_neg hv]
        rw [try_providers_fail_iff]
        constructor
        · intro h
          exact ⟨⟨e, rfl, by simpa using hv⟩, h⟩
        · exact fun h => h.2
    · simp only [robust_invoke, hc, exceptFailed]
      constructor
      · intro h; simp at h
      · rintro ⟨⟨e2, he2, -⟩, -⟩
        simp at he2
  · intro env st task h
    have hmsg := robust_invoke_fail_msg env st.provider _ h
    simp only [run_task, run_task_full, hmsg]
    rfl

/-- Witness for C3 (amended): at the concrete all-failing environment the
hypothesis of the third conjunct holds and `run_task` returns the caught
error string. -/
theorem run_task_raises_C3_witness :
    run_task all_fail_env agent_st0 "t"
      = Except.ok "❌ Agent Error: All LLM providers failed. Please check your API keys or connection." :=
  run_task_raises_C3.2.2 all_fail_env agent_st0 "t" (by rfl)

/-- C5: for every environment (hence every LLM behaviour, including one
requesting tool calls on every round) and every task, `run_task` runs at
most `MAX_LOOPS = 5` tool rounds, returns a string, and — whenever the
body completed with a final response — returns exactly that response's
content. -/
theorem tool_loop_termination_C5 (env : AgentEnv) (st : BaseAgentState) (task : String) :
    (run_task_full env st task).rounds ≤ MAX_LOOPS
      ∧ (∃ s, run_task env st task = Except.ok s)
      ∧ (∀ r, (run_task_full env st task).final = some r
          → run_task env st task = Except.ok r.content) := by
  rcases hrob : robust_invoke env st.provider
      (build_history st.formatted_system_prompt
        ((st.warm_memory.add_message "User" task env.ts).1)) with e | ⟨ai0, cur1⟩
  · simp only [run_task, run_task_full, hrob]
    refine ⟨Nat.zero_le _, ⟨_, rfl⟩, ?_⟩
    intro r h
    exact Option.noConfusion h
  · rcases htl : tool_loop env MAX_LOOPS cur1
        (build_history st.formatted_system_prompt
          ((st.warm_memory.add_message "User" task env.ts).1) ++ [aiToMsg ai0]) ai0
      with ⟨n, e2 | ⟨af, cf⟩⟩
    · simp only [run_task, run_task_full, hrob, htl]
      have hb := tool_loop_rounds_le env MAX_LOOPS cur1
        (build_history st.formatted_system_prompt
          ((st.warm_memory.add_message "User" task env.ts).1) ++ [aiToMsg ai0]) ai0
      rw [htl] at hb
      refine ⟨hb, ⟨_, rfl⟩, ?_⟩
      intro r h
      exact Option.noConfusion h
    · simp only [run_task, run_task_full, hrob, htl]
      have hb := tool_loop_rounds_le env MAX_LOOPS cur1
        (build_history st.formatted_system_prompt
          ((st.warm_memory.add_message "User" task env.ts).1) ++ [aiToMsg ai0]) ai0
      rw [htl] at hb
      refine ⟨hb, ⟨_, rfl⟩, ?_⟩
      intro r h
      injection h with h2
      rw [← h2]

/-- A benign environment for the C5 witness: the LLM answers `"done"`
with no tool calls. -/
def plain_env : AgentEnv :=
  { invoke := fun _ _ => .ok { content := "done", tool_calls := [] },
    tool_lookup := fun _ => none, ts := "t0" }

/-- Witness for C5: at the concrete benign environment the body completes
with the response `"done"` and `run_task` returns exactly its content. -/
theorem tool_loop_termination_C5_witness :
    (run_task_full plain_env agent_st0 "describe the data").rounds ≤ MAX_LOOPS
      ∧ run_task plain_env agent_st0 "describe the data" = Except.ok "done" :=
  ⟨(tool_loop_termination_C5 plain_env agent_st0 "describe the data").1,
   (tool_loop_termination_C5 plain_env agent_st0 "describe the data").2.2
     { content := "done", tool_calls := [] } (by rfl)⟩

-- ==========================================================
-- JSON model (the external `json` library used by save_metadata /
-- get_metadata) and the metadata round trip
-- ==========================================================

/-- The decimal digit characters. -/
def digitChar : Nat → Char
  | 0 => '0' | 1 => '1' | 2 => '2' | 3 => '3' | 4 => '4'
  | 5 => '5' | 6 => '6' | 7 => '7' | 8 => '8' | _ => '9'

def digitVal (c : Char) : Nat := c.toNat - 48

/-- Decimal digits of a natural number, most significant first. -/
def natChars (n : Nat) : List Char :=
  if _h : n < 10 then [digitChar n]
  else natChars (n / 10) ++ [digitChar (n % 10)]
decreasing_by exact Nat.div_lt_self (by omega) (by omega)

/-- Decimal rendering of an integer. -/
def intChars (n : Int) : List Char :=
  if n < 0 then '-' :: natChars n.natAbs else natChars n.natAbs

/-- JSON string escaping: quote and backslash get a backslash prefix. -/
def escChar (c : Char) : List Char :=
  if c = '"' ∨ c = '\\' then ['\\', c] else [c]

def escChars : List Char → List Char
  | [] => []
  | c :: rest => escChar c ++ escChars rest

mutual
/-- `json.dumps` (compact separators) of a `PyVal`, as characters. -/
def dumpVal : PyVal → List Char
  | .pynull => ['n', 'u', 'l', 'l']
  | .pybool true => ['t', 'r', 'u', 'e']
  | .pybool false => ['f', 'a', 'l', 's', 'e']
  | .pyint n => intChars n
  | .pystr s => '"' :: (escChars s.data ++ ['"'])
  | .pylist l => '[' :: (dumpItems l ++ [']'])
  | .pydict kvs => '\x7b' :: (dumpFields kvs ++ ['\x7d'])

def dumpItems : List PyVal → List Char
  | [] => []
  | [v] => dumpVal v
  | v :: vs => dumpVal v ++ ',' :: dumpItems vs

def dumpFields : List (String × PyVal) → List Char
  | [] => []
  | [(k, v)] => '"' :: (escChars k.data ++ '"' :: ':' :: dumpVal v)
  | (k, v) :: kvs =>
    ('"' :: (escChars k.data ++ '"' :: ':' :: dumpVal v)) ++ ',' :: dumpFields kvs
end

/-- `json.dumps` as a string. -/
def pydumps (v : PyVal) : String := String.mk (dumpVal v)

def charsToNat (ds : List Char) : Nat :=
  ds.foldl (fun a c => 10 * a + digitVal c) 0

/-- Parse a leading run of decimal digits. -/
def parseNatChars (cs : List Char) : Option (Nat × List Char) :=
  let ds := cs.takeWhile Char.isDigit
  if ds.isEmpty then none
  else some (charsToNat ds, cs.dropWhile Char.isDigit)

/-- Parse a JSON string body (after the opening quote) up to the closing
quote, unescaping backslash escapes; the flag records a pending escape. -/
def parseStrAux : Bool → List Char → Option (List Char × List Char)
  | _, [] => none
  | true, c :: rest => (parseStrAux false rest).map (fun p => (c :: p.1, p.2))
  | false, c :: rest =>
    if c = '\\' then parseStrAux true rest
    else if c = '"' then some ([], rest)
    else (parseStrAux false rest).map (fun p => (c :: p.1, p.2))

def parseStr (cs : List Char) : Option (List Char × List Char) :=
  parseStrAux false cs

/-- Fuel-bounded JSON parsers (value, array items after `[`, object
fields after `\x7b`), built by plain structural recursion on the fuel so
that the kernel can evaluate them. -/
def parsers : Nat →
    (List Char → Option (PyVal × List Char))
      × (List Char → Option (List PyVal × List Char))
      × (List Char → Option (List (String × PyVal) × List Char))
  | 0 => (fun _ => none, fun _ => none, fun _ => none)
  | fuel + 1 =>
    ( fun cs =>
        match cs with
        | [] => none
        | c :: rest =>
          if c = 'n' then
            match rest with
            | 'u' :: 'l' :: 'l' :: r => some (.pynull, r)
            | _ => none
          else if c = 't' then
            match rest with
            | 'r' :: 'u' :: 'e' :: r => some (.pybool true, r)
            | _ => none
          else if c = 'f' then
            match rest with
            | 'a' :: 'l' :: 's' :: 'e' :: r => some (.pybool false, r)
            | _ => none
          else if c = '"' then
            (parseStr rest).map (fun p => (.pystr (String.mk p.1), p.2))
          else if c = '[' then
            if rest.head? = some ']' then some (.pylist [], rest.tail)
            else ((parsers fuel).2.1 rest).map (fun p => (.pylist p.1, p.2))
          else if c = '\x7b' then
            if rest.head? = some '\x7d' then some (.pydict [], rest.tail)
            else ((parsers fuel).2.2 rest).map (fun p => (.pydict p.1, p.2))
          else if c = '-' then
            (parseNatChars rest).map (fun p => (.pyint (-(p.1 : Int)), p.2))
          else if c.isDigit then
            (parseNatChars (c :: rest)).map (fun p => (.pyint (p.1 : Int), p.2))
          else none,
      fun cs =>
        match (parsers fuel).1 cs with
        | none => none
        | some (v, rest) =>
          if rest.head? = some ',' then
            ((parsers fuel).2.1 rest.tail).map (fun p => (v :: p.1, p.2))
          else if rest.head? = some ']' then some ([v], rest.tail)
          else none,
      fun cs =>
        match cs with
        | '"' :: cs1 =>
          match parseStr cs1 with
          | none => none
          | some (kchars, rest1) =>
            if rest1.head? = some ':' then
              match (parsers fuel).1 rest1.tail with
              | none => none
              | some (v, rest2) =>
                if rest2.head? = some ',' then
                  ((parsers fuel).2.2 rest2.tail).map
                    (fun p => ((String.mk kchars, v) :: p.1, p.2))
                else if rest2.head? = some '\x7d' then
                  some ([(String.mk kchars, v)], rest2.tail)
                else none
            else none
        | _ => none )

/-- JSON value parser (the model of `json.loads`'s grammar). -/
def parseVal (fuel : Nat) (cs : List Char) : Option (PyVal × List Char) :=
  (parsers fuel).1 cs

def parseItems (fuel : Nat) (cs : List Char) : Option (List PyVal × List Char) :=
  (parsers fuel).2.1 cs

def parseFields (fuel : Nat) (cs : List Char) :
    Option (List (String × PyVal) × List Char) :=
  (parsers fuel).2.2 cs

/-- `json.loads`: parse the whole string as one JSON document (`none`
models the `json.JSONDecodeError` raised on failure). -/
def pyloads (s : String) : Option PyVal :=
  match parseVal (s.data.length + 1) s.data with
  | some (v, []) => some v
  | _ => none

-- ----------------------------------------------------------
-- Round-trip correctness of the JSON model
-- ----------------------------------------------------------

/-- A rest-list a rendered number may be followed by: empty or starting
with a non-digit (in the serializer's output: `,`, `]`, `\x7d` or
nothing). -/
def goodRest : List Char → Bool
  | [] => true
  | c :: _ => !c.isDigit

theorem digitChar_isDigit (d : Nat) : (digitChar d).isDigit = true := by
  match d with
  | 0 | 1 | 2 | 3 | 4 | 5 | 6 | 7 | 8 => rfl
  | n + 9 => rfl

theorem digitVal_digitChar (d : Nat) (h : d < 10) : digitVal (digitChar d) = d := by
  match d with
  | 0 | 1 | 2 | 3 | 4 | 5 | 6 | 7 | 8 | 9 => rfl
  | n + 10 => omega

theorem natChars_ne_nil (n : Nat) : natChars n ≠ [] := by
  rw [natChars]
  split
  · simp
  · simp

theorem natChars_all_digits (n : Nat) : ∀ c ∈ natChars n, c.isDigit = true := by
  induction n using Nat.strong_induction_on with
  | _ n ih =>
    intro c hc
    rw [natChars] at hc
    split at hc
    · simp at hc
      subst hc
      exact digitChar_isDigit _
    · rcases List.mem_append.mp hc with h | h
      · exact ih (n / 10) (Nat.div_lt_self (by omega) (by omega)) c h
      · simp at h
        subst h
        exact digitChar_isDigit _

theorem charsToNat_append_one (ds : List Char) (c : Char) :
    charsToNat (ds ++ [c]) = 10 * charsToNat ds + digitVal c := by
  simp [charsToNat, List.foldl_append]

theorem charsToNat_natChars (n : Nat) : charsToNat (natChars n) = n := by
  induction n using Nat.strong_induction_on with
  | _ n ih =>
    rw [natChars]
    split
    · simp [charsToNat]
      rw [digitVal_digitChar]
      omega
    · rw [charsToNat_append_one, ih (n / 10) (Nat.div_lt_self (by omega) (by omega)),
        digitVal_digitChar _ (Nat.mod_lt _ (by omega))]
      omega

theorem takeWhile_rest (p : Char → Bool) (rest : List Char)
    (hg : (match rest with | [] => true | c :: _ => !p c) = true) :
    rest.takeWhile p = [] ∧ rest.dropWhile p = rest := by
  match rest with
  | [] => exact ⟨rfl, rfl⟩
  | c :: t =>
    simp only [Bool.not_eq_eq_eq_not, Bool.not_true] at hg
    constructor
    · rw [List.takeWhile_cons_of_neg]
      simp [hg]
    · rw [List.dropWhile_cons_of_neg]
      simp [hg]

theorem parseNat_dump (n : Nat) (rest : List Char) (hg : goodRest rest = true) :
    parseNatChars (natChars n ++ rest) = some (n, rest) := by
  have hall : ∀ a ∈ natChars n, Char.isDigit a := by
    intro a ha
    exact natChars_all_digits n a ha
  obtain ⟨hrt, hrd⟩ := takeWhile_rest Char.isDigit rest (by simpa [goodRest] using hg)
  have ht : (natChars n ++ rest).takeWhile Char.isDigit = natChars n := by
    rw [List.takeWhile_append_of_pos hall, hrt, List.append_nil]
  have hd : (natChars n ++ rest).dropWhile Char.isDigit = rest := by
    rw [List.dropWhile_append_of_pos hall, hrd]
  have hne : (natChars n).isEmpty = false := by
    rcases hnc : natChars n with _ | ⟨c, t⟩
    · exact absurd hnc (natChars_ne_nil n)
    · rfl
  rw [parseNatChars]
  simp only [ht, hd, hne, Bool.false_eq_true, if_false, charsToNat_natChars]

theorem parseStr_esc (l rest : List Char) :
    parseStr (escChars l ++ '"' :: rest) = some (l, rest) := by
  unfold parseStr
  induction l with
  | nil => rfl
  | cons c t ih =>
    by_cases hc : c = '"' ∨ c = '\\'
    · rw [escChars, escChar, if_pos hc]
      simp only [List.cons_append, List.nil_append, List.append_assoc]
      rw [parseStrAux, if_pos rfl, parseStrAux, ih]
      rfl
    · push_neg at hc
      rw [escChars, escChar, if_neg (by tauto)]
      simp only [List.cons_append, List.nil_append]
      rw [parseStrAux, if_neg hc.2, if_neg hc.1, ih]
      rfl

theorem dumpVal_ne_nil (v : PyVal) : dumpVal v ≠ [] := by
  match v with
  | .pynull | .pybool true | .pybool false | .pystr _ | .pylist _ | .pydict _ =>
    simp [dumpVal]
  | .pyint n =>
    simp only [dumpVal, intChars]
    split
    · simp
    · exact natChars_ne_nil _

theorem dumpItems_ne_nil (l : List PyVal) (h : l ≠ []) : dumpItems l ≠ [] := by
  match l with
  | [v] =>
    rw [dumpItems]
    exact dumpVal_ne_nil v
  | v :: v2 :: vs =>
    have hdi : dumpItems (v :: v2 :: vs) = dumpVal v ++ ',' :: dumpItems (v2 :: vs) := by
      rw [dumpItems]
      simp
    rw [hdi]
    simp

theorem dumpVal_head_ne (v : PyVal) (c : Char) (h : (dumpVal v).head? = some c) :
    c ≠ ']' ∧ c ≠ '\x7d' := by
  match v with
  | .pynull | .pybool true | .pybool false | .pystr _ | .pylist _ | .pydict _ =>
    simp [dumpVal] at h
    subst h
    decide
  | .pyint n =>
    simp only [dumpVal, intChars] at h
    split at h
    · simp at h
      subst h
      decide
    · rcases hnc : natChars n.natAbs with _ | ⟨c2, t⟩
      · exact absurd hnc (natChars_ne_nil _)
      · rw [hnc] at h
        have hc : c2 = c := by simpa using h
        have hd : c.isDigit = true := by
          rw [← hc]
          exact natChars_all_digits n.natAbs c2 (by rw [hnc]; exact List.mem_cons_self _ _)
        constructor
        · rintro rfl
          exact absurd hd (by decide)
        · rintro rfl
          exact absurd hd (by decide)

theorem dumpItems_head_ne (l : List PyVal) (hl : l ≠ []) (c : Char)
    (h : (dumpItems l).head? = some c) : c ≠ ']' ∧ c ≠ '\x7d' := by
  match l with
  | [v] => exact dumpVal_head_ne v c (by simpa [dumpItems] using h)
  | v :: v2 :: vs =>
    rcases hdv : dumpVal v with _ | ⟨c0, t⟩
    · exact absurd hdv (dumpVal_ne_nil v)
    · have hdi : dumpItems (v :: v2 :: vs) = dumpVal v ++ ',' :: dumpItems (v2 :: vs) := by
        rw [dumpItems]
        simp
      rw [hdi, hdv] at h
      have hc : c0 = c := by simpa using h
      exact dumpVal_head_ne v c (by rw [hdv]; simpa using hc)

theorem dumpFields_head_quote (kvs : List (String × PyVal)) (h : kvs ≠ []) :
    (dumpFields kvs).head? = some '"' := by
  match kvs with
  | [(k, v)] => rfl
  | (k, v) :: kv2 :: rest => rfl

theorem parseVal_null (f : Nat) (r : List Char) :
    parseVal (f + 1) ('n' :: 'u' :: 'l' :: 'l' :: r) = some (.pynull, r) := rfl

theorem parseVal_true (f : Nat) (r : List Char) :
    parseVal (f + 1) ('t' :: 'r' :: 'u' :: 'e' :: r) = some (.pybool true, r) := rfl

theorem parseVal_false (f : Nat) (r : List Char) :
    parseVal (f + 1) ('f' :: 'a' :: 'l' :: 's' :: 'e' :: r) = some (.pybool false, r) := rfl

theorem parseVal_quote (f : Nat) (rest : List Char) :
    parseVal (f + 1) ('"' :: rest)
      = (parseStr rest).map (fun p => (.pystr (String.mk p.1), p.2)) := rfl

theorem parseVal_lbrack (f : Nat) (rest : List Char) :
    parseVal (f + 1) ('[' :: rest)
      = if rest.head? = some ']' then some (.pylist [], rest.tail)
        else (parseItems f rest).map (fun p => (.pylist p.1, p.2)) := rfl

theorem parseVal_lbrace (f : Nat) (rest : List Char) :
    parseVal (f + 1) ('\x7b' :: rest)
      = if rest.head? = some '\x7d' then some (.pydict [], rest.tail)
        else (parseFields f rest).map (fun p => (.pydict p.1, p.2)) := rfl

theorem parseVal_minus (f : Nat) (rest : List Char) :
    parseVal (f + 1) ('-' :: rest)
      = (parseNatChars rest).map (fun p => (.pyint (-(p.1 : Int)), p.2)) := rfl

theorem parseVal_digit (f : Nat) (c : Char) (rest : List Char) (h : c.isDigit = true) :
    parseVal (f + 1) (c :: rest)
      = (parseNatChars (c :: rest)).map (fun p => (.pyint (p.1 : Int), p.2)) := by
  have h1 : ¬ c = 'n' := by rintro rfl; exact absurd h (by decide)
  have h2 : ¬ c = 't' := by rintro rfl; exact absurd h (by decide)
  have h3 : ¬ c = 'f' := by rintro rfl; exact absurd h (by decide)
  have h4 : ¬ c = '"' := by rintro rfl; exact absurd h (by decide)
  have h5 : ¬ c = '[' := by rintro rfl; exact absurd h (by decide)
  have h6 : ¬ c = '\x7b' := by rintro rfl; exact absurd h (by decide)
  have h7 : ¬ c = '-' := by rintro rfl; exact absurd h (by decide)
  simp only [parseVal, parsers]
  rw [if_neg h1, if_neg h2, if_neg h3, if_neg h4, if_neg h5, if_neg h6, if_neg h7,
    if_pos h]

theorem parseItems_succ (f : Nat) (cs : List Char) :
    parseItems (f + 1) cs
      = match parseVal f cs with
        | none => none
        | some (v, rest) =>
          if rest.head? = some ',' then
            (parseItems f rest.tail).map (fun p => (v :: p.1, p.2))
          else if rest.head? = some ']' then some ([v], rest.tail)
          else none := rfl

theorem parseFields_quote (f : Nat) (cs1 : List Char) :
    parseFields (f + 1) ('"' :: cs1)
      = match parseStr cs1 with
        | none => none
        | some (kchars, rest1) =>
          if rest1.head? = some ':' then
            match parseVal f rest1.tail with
            | none => none
            | some (v, rest2) =>
              if rest2.head? = some ',' then
                (parseFields f rest2.tail).map
                  (fun p => ((String.mk kchars, v) :: p.1, p.2))
              else if rest2.head? = some '\x7d' then
                some ([(String.mk kchars, v)], rest2.tail)
              else none
          else none := rfl

theorem parseFields_cont (f : Nat) (cs1 kchars rest1 : List Char)
    (hs : parseStr cs1 = some (kchars, rest1)) :
    parseFields (f + 1) ('"' :: cs1)
      = if rest1.head? = some ':' then
          match parseVal f rest1.tail with
          | none => none
          | some (v, rest2) =>
            if rest2.head? = some ',' then
              (parseFields f rest2.tail).map
                (fun p => ((String.mk kchars, v) :: p.1, p.2))
            else if rest2.head? = some '\x7d' then
              some ([(String.mk kchars, v)], rest2.tail)
            else none
        else none := by
  rw [parseFields_quote, hs]

/-- Main round-trip lemma: at every sufficient fuel, parsing the
serializer's output (followed by any permissible rest) gives back exactly
the serialized value and the rest. -/
theorem parse_dump_aux (fuel : Nat) :
    (∀ v rest, (dumpVal v).length ≤ fuel → goodRest rest = true →
      parseVal fuel (dumpVal v ++ rest) = some (v, rest))
    ∧ (∀ l rest, l ≠ [] → (dumpItems l).length < fuel →
      parseItems fuel (dumpItems l ++ ']' :: rest) = some (l, rest))
    ∧ (∀ kvs rest, kvs ≠ [] → (dumpFields kvs).length < fuel →
      parseFields fuel (dumpFields kvs ++ '\x7d' :: rest) = some (kvs, rest)) := by
  induction fuel using Nat.strong_induction_on with
  | _ fuel ih =>
  rcases fuel with _ | f
  · refine ⟨?_, ?_, ?_⟩
    · intro v rest hlen _
      exact absurd (List.length_eq_zero.mp (Nat.le_zero.mp hlen)) (dumpVal_ne_nil v)
    · intro l rest _ hlen
      omega
    · intro kvs rest _ hlen
      omega
  · obtain ⟨Af, Bf, Cf⟩ := ih f (Nat.lt_succ_self f)
    refine ⟨?_, ?_, ?_⟩
    -- values
    · intro v rest hlen hg
      rcases v with _ | b | n | s | l | kvs
      · -- null
        have hd : dumpVal .pynull ++ rest = 'n' :: 'u' :: 'l' :: 'l' :: rest := by
          simp [dumpVal]
        rw [hd, parseVal_null]
      · -- bool
        rcases b with _ | _
        · have hd : dumpVal (.pybool false) ++ rest
              = 'f' :: 'a' :: 'l' :: 's' :: 'e' :: rest := by simp [dumpVal]
          rw [hd, parseVal_false]
        · have hd : dumpVal (.pybool true) ++ rest
              = 't' :: 'r' :: 'u' :: 'e' :: rest := by simp [dumpVal]
          rw [hd, parseVal_true]
      · -- int
        by_cases hn : n < 0
        · have hd : dumpVal (.pyint n) ++ rest = '-' :: (natChars n.natAbs ++ rest) := by
            simp [dumpVal, intChars, hn]
          rw [hd, parseVal_minus, parseNat_dump _ _ hg]
          show some (PyVal.pyint (-((n.natAbs : Nat) : Int)), rest) = some (.pyint n, rest)
          have heq : -((n.natAbs : Nat) : Int) = n := by omega
          rw [heq]
        · have hd : dumpVal (.pyint n) ++ rest = natChars n.natAbs ++ rest := by
            simp [dumpVal, intChars, hn]
          rcases hnc : natChars n.natAbs with _ | ⟨c, t⟩
          · exact absurd hnc (natChars_ne_nil _)
          · have hcd : c.isDigit = true :=
              natChars_all_digits _ c (by rw [hnc]; exact List.mem_cons_self _ _)
            rw [hd, hnc, List.cons_append, parseVal_digit f c _ hcd,
              ← List.cons_append, ← hnc, parseNat_dump _ _ hg]
            show some (PyVal.pyint ((n.natAbs : Nat) : Int), rest) = some (.pyint n, rest)
            have heq : ((n.natAbs : Nat) : Int) = n := by omega
            rw [heq]
      · -- string
        have hd : dumpVal (.pystr s) ++ rest = '"' :: (escChars s.data ++ '"' :: rest) := by
          simp [dumpVal]
        rw [hd, parseVal_quote, parseStr_esc]
        rfl
      · -- list
        rcases l with _ | ⟨v0, vs⟩
        · have hd : dumpVal (.pylist []) ++ rest = '[' :: (']' :: rest) := by
            simp [dumpVal, dumpItems]
          rw [hd, parseVal_lbrack]
          rfl
        · have hne : (v0 :: vs : List PyVal) ≠ [] := by simp
          have hd : dumpVal (.pylist (v0 :: vs)) ++ rest
              = '[' :: (dumpItems (v0 :: vs) ++ ']' :: rest) := by
            simp [dumpVal]
          have hh : ¬ (dumpItems (v0 :: vs) ++ ']' :: rest).head? = some ']' := by
            rcases hdi : dumpItems (v0 :: vs) with _ | ⟨c0, t⟩
            · exact absurd hdi (dumpItems_ne_nil _ hne)
            · intro hcon
              have hc0 : c0 = ']' := by simpa using hcon
              exact (dumpItems_head_ne (v0 :: vs) hne c0 (by rw [hdi]; rfl)).1 hc0
          have hlen2 : (dumpItems (v0 :: vs)).length < f := by
            have h2 : (dumpVal (.pylist (v0 :: vs))).length
                = (dumpItems (v0 :: vs)).length + 2 := by
              simp only [dumpVal, List.length_cons, List.length_append,
                List.length_nil]
              try omega
            omega
          rw [hd, parseVal_lbrack, if_neg hh, Bf (v0 :: vs) rest hne hlen2]
          rfl
      · -- dict
        rcases kvs with _ | ⟨⟨k0, v0⟩, kvs2⟩
        · have hd : dumpVal (.pydict []) ++ rest = '\x7b' :: ('\x7d' :: rest) := by
            simp [dumpVal, dumpFields]
          rw [hd, parseVal_lbrace]
          rfl
        · have hne : ((k0, v0) :: kvs2 : List (String × PyVal)) ≠ [] := by simp
          have hd : dumpVal (.pydict ((k0, v0) :: kvs2)) ++ rest
              = '\x7b' :: (dumpFields ((k0, v0) :: kvs2) ++ '\x7d' :: rest) := by
            simp [dumpVal]
          have hh : ¬ (dumpFields ((k0, v0) :: kvs2) ++ '\x7d' :: rest).head?
              = some '\x7d' := by
            rcases hdf : dumpFields ((k0, v0) :: kvs2) with _ | ⟨c0, t⟩
            · have := dumpFields_head_quote _ hne
              rw [hdf] at this
              simp at this
            · intro hcon
              have hc0 : c0 = '\x7d' := by simpa using hcon
              have := dumpFields_head_quote _ hne
              rw [hdf] at this
              have : c0 = '"' := by simpa using this
              rw [hc0] at this
              exact absurd this (by decide)
          have hlen2 : (dumpFields ((k0, v0) :: kvs2)).length < f := by
            have h2 : (dumpVal (.pydict ((k0, v0) :: kvs2))).length
                = (dumpFields ((k0, v0) :: kvs2)).length + 2 := by
              simp only [dumpVal, List.length_cons, List.length_append,
                List.length_nil]
              try omega
            omega
          rw [hd, parseVal_lbrace, if_neg hh, Cf ((k0, v0) :: kvs2) rest hne hlen2]
          rfl
    -- array items
    · intro l rest hne hlen
      rcases l with _ | ⟨v, vs⟩
      · exact absurd rfl hne
      rcases vs with _ | ⟨v2, vs⟩
      · have hd : dumpItems [v] ++ ']' :: rest = dumpVal v ++ ']' :: rest := by
          simp [dumpItems]
        have hlv : (dumpVal v).length ≤ f := by
          have h2 : (dumpItems [v]).length = (dumpVal v).length := by simp [dumpItems]
          omega
        rw [hd, parseItems_succ, Af v (']' :: rest) hlv rfl]
        rfl
      · have hne2 : (v2 :: vs : List PyVal) ≠ [] := by simp
        have hdi : dumpItems (v :: v2 :: vs) = dumpVal v ++ ',' :: dumpItems (v2 :: vs) := by
          rw [dumpItems]
          simp
        have hpos : 0 < (dumpVal v).length := List.length_pos.mpr (dumpVal_ne_nil v)
        have hsum : (dumpItems (v :: v2 :: vs)).length
            = (dumpVal v).length + ((dumpItems (v2 :: vs)).length + 1) := by
          rw [hdi]
          simp
        have hlv : (dumpVal v).length ≤ f := by omega
        have hlB : (dumpItems (v2 :: vs)).length < f := by omega
        have harr : dumpItems (v :: v2 :: vs) ++ ']' :: rest
            = dumpVal v ++ ',' :: (dumpItems (v2 :: vs) ++ ']' :: rest) := by
          rw [hdi]
          simp
        rw [harr, parseItems_succ,
          Af v (',' :: (dumpItems (v2 :: vs) ++ ']' :: rest)) hlv rfl]
        show (parseItems f (dumpItems (v2 :: vs) ++ ']' :: rest)).map
            (fun p => (v :: p.1, p.2)) = some (v :: v2 :: vs, rest)
        rw [Bf (v2 :: vs) rest hne2 hlB]
        rfl
    -- object fields
    · intro kvs rest hne hlen
      rcases kvs with _ | ⟨⟨k, v⟩, kvs2⟩
      · exact absurd rfl hne
      rcases kvs2 with _ | ⟨⟨k2, v2⟩, kvs3⟩
      · have hd : dumpFields [(k, v)] ++ '\x7d' :: rest
            = '"' :: (escChars k.data ++ '"' :: (':' :: (dumpVal v ++ '\x7d' :: rest))) := by
          rw [dumpFields]
          simp
        have hlv : (dumpVal v).length ≤ f := by
          have h2 : (dumpFields [(k, v)]).length
              = (escChars k.data).length + (dumpVal v).length + 3 := by
            simp only [dumpFields, List.length_cons, List.length_append]
            omega
          omega
        rw [hd, parseFields_cont f _ _ _ (parseStr_esc k.data _),
          if_pos (show ((':' :: (dumpVal v ++ '\x7d' :: rest)).head? = some ':') from rfl)]
        simp only [List.tail_cons]
        rw [Af v ('\x7d' :: rest) hlv rfl]
        rfl
      · have hne2 : ((k2, v2) :: kvs3 : List (String × PyVal)) ≠ [] := by simp
        have hdf : dumpFields ((k, v) :: (k2, v2) :: kvs3)
            = ('"' :: (escChars k.data ++ '"' :: ':' :: dumpVal v))
              ++ ',' :: dumpFields ((k2, v2) :: kvs3) := by
          rw [dumpFields]
          simp
        have hpos : 0 < (dumpVal v).length := List.length_pos.mpr (dumpVal_ne_nil v)
        have hsum : (dumpFields ((k, v) :: (k2, v2) :: kvs3)).length
            = (escChars k.data).length + (dumpVal v).length
              + ((dumpFields ((k2, v2) :: kvs3)).length + 1) + 3 := by
          rw [hdf]
          simp only [List.length_cons, List.length_append]
          omega
        have hlv : (dumpVal v).length ≤ f := by omega
        have hlC : (dumpFields ((k2, v2) :: kvs3)).length < f := by omega
        have harr : dumpFields ((k, v) :: (k2, v2) :: kvs3) ++ '\x7d' :: rest
            = '"' :: (escChars k.data
                ++ '"' :: (':' :: (dumpVal v
                  ++ ',' :: (dumpFields ((k2, v2) :: kvs3) ++ '\x7d' :: rest)))) := by
          rw [hdf]
          simp
        rw [harr, parseFields_cont f _ _ _ (parseStr_esc k.data _),
          if_pos (show ((':' :: (dumpVal v
            ++ ',' :: (dumpFields ((k2, v2) :: kvs3) ++ '\x7d' :: rest))).head?
              = some ':') from rfl)]
        simp only [List.tail_cons]
        rw [Af v (',' :: (dumpFields ((k2, v2) :: kvs3) ++ '\x7d' :: rest)) hlv rfl]
        show (parseFields f (dumpFields ((k2, v2) :: kvs3) ++ '\x7d' :: rest)).map
            (fun p => ((String.mk k.data, v) :: p.1, p.2))
          = some ((k, v) :: (k2, v2) :: kvs3, rest)
        rw [Cf ((k2, v2) :: kvs3) rest hne2 hlC]
        rfl

/-- `json.loads (json.dumps v) = v` in the model. -/
theorem pyloads_pydumps (v : PyVal) : pyloads (pydumps v) = some v := by
  have h := (parse_dump_aux ((dumpVal v).length + 1)).1 v [] (by omega) rfl
  rw [List.append_nil] at h
  unfold pyloads pydumps
  have hdata : (String.mk (dumpVal v)).data = dumpVal v := rfl
  rw [hdata, h]

-- ----------------------------------------------------------
-- WarmMemory metadata (save_metadata / get_metadata)
-- ----------------------------------------------------------

/-- `WarmMemory.save_metadata`: dict and list values are serialized with
`json.dumps` before storing; every other value is stored as-is.  Storing
under a key overwrites it (modelled by prepending, with first-match
lookup). -/
def WarmMemory.save_metadata (m : WarmMemory) (key : String) (value : PyVal) :
    WarmMemory :=
  match value with
  | .pydict _ => { m with meta := (key, .pystr (pydumps value)) :: m.meta }
  | .pylist _ => { m with meta := (key, .pystr (pydumps value)) :: m.meta }
  | v => { m with meta := (key, v) :: m.meta }

/-- `WarmMemory.get_metadata`: a missing key gives Python `None`
(`pynull`); a stored string is fed to `json.loads`, whose failure
(`JSONDecodeError`) falls back to returning the raw string; `json.loads`
on a non-string raises `TypeError`, also caught, returning the raw
value. -/
def WarmMemory.get_metadata (m : WarmMemory) (key : String) : PyVal :=
  match assocLookup m.meta key with
  | none => .pynull
  | some val =>
    match val with
    | .pystr s =>
      match pyloads s with
      | some v => v
      | none => .pystr s
    | v => v

/-- C9 counterexample: the JSON-parseable string value `"123"` does not
round-trip — `save_metadata` stores it verbatim, and `get_metadata`'s
`json.loads` decodes it into the integer `123`. -/
theorem metadata_roundtrip_C9_counterexample :
    (warm_init.save_metadata "k" (PyVal.pystr "123")).get_metadata "k"
        = PyVal.pyint 123
      ∧ PyVal.pyint 123 ≠ PyVal.pystr "123" :=
  ⟨rfl, fun h => PyVal.noConfusion h⟩

/-- C9 (amended): `get_metadata` after `save_metadata` returns the saved
value for every non-string value (dicts and lists via the
`dumps`/`loads` round trip, scalars verbatim), and for every string
value that does not itself parse as JSON; a string that parses as JSON
is decoded instead (see the counterexample). -/
theorem metadata_roundtrip_C9 :
    (∀ (m : WarmMemory) (k : String) (v : PyVal), (∀ s, v ≠ PyVal.pystr s) →
      (m.save_metadata k v).get_metadata k = v)
      ∧ (∀ (m : WarmMemory) (k s : String), pyloads s = none →
        (m.save_metadata k (PyVal.pystr s)).get_metadata k = PyVal.pystr s) := by
  constructor
  · intro m k v hv
    match v with
    | .pynull =>
      simp [WarmMemory.save_metadata, WarmMemory.get_metadata, assocLookup]
    | .pybool b =>
      simp [WarmMemory.save_metadata, WarmMemory.get_metadata, assocLookup]
    | .pyint n =>
      simp [WarmMemory.save_metadata, WarmMemory.get_metadata, assocLookup]
    | .pystr s => exact absurd rfl (hv s)
    | .pylist l =>
      simp [WarmMemory.save_metadata, WarmMemory.get_metadata, assocLookup,
        pyloads_pydumps]
    | .pydict kvs =>
      simp [WarmMemory.save_metadata, WarmMemory.get_metadata, assocLookup,
        pyloads_pydumps]
  · intro m k s hs
    simp [WarmMemory.save_metadata, WarmMemory.get_metadata, assocLookup, hs]

/-- Witness for C9 (amended): a nested dict value (with a negative
number, booleans, `null` and an escaped quote in a string) and a
non-JSON string value both round-trip. -/
theorem metadata_roundtrip_C9_witness :
    (warm_init.save_metadata "cfg"
        (PyVal.pydict [("a", PyVal.pyint (-3)),
          ("b", PyVal.pylist [PyVal.pynull, PyVal.pybool true, PyVal.pystr "x\"y"])])
      ).get_metadata "cfg"
        = PyVal.pydict [("a", PyVal.pyint (-3)),
            ("b", PyVal.pylist [PyVal.pynull, PyVal.pybool true, PyVal.pystr "x\"y"])]
      ∧ (warm_init.save_metadata "note" (PyVal.pystr "hello")).get_metadata "note"
          = PyVal.pystr "hello" :=
  ⟨metadata_roundtrip_C9.1 warm_init "cfg" _ (fun _ h => PyVal.noConfusion h),
   metadata_roundtrip_C9.2 warm_init "note" "hello" rfl⟩

end NotDataAnalyst
